import Mathlib

/-!
Verification development for the Flowxus mesh validation-and-repair engine
(`mesh/checks` and `mesh/repair`).

The Python modules are shallowly embedded: numpy float coordinates become
exact rationals, numpy arrays and Python dicts become lists
(association lists preserve the insertion order that Python dicts guarantee),
int64 hash arithmetic is modelled with explicit wrap-around on `Int`, and
Python exceptions become `Except`.  Check rules whose bodies this development
does not reason about (they need square roots, inverse cosines, or external
collaborators such as `meshio`) enter the registry through an explicit
function parameter `fns`; every structural fact proved below holds for all
instantiations of that parameter, hence for the concrete rule bodies.
-/

/-- Two dimensional point with exact rational coordinates (the XY slice the
Python code works in). -/
abbrev Point : Type := ℚ × ℚ

/-- Triangle connectivity row: three node indices. -/
abbrev Tri3 : Type := ℕ × ℕ × ℕ

/-- Quad connectivity row: four node indices. -/
abbrev Quad4 : Type := ℕ × ℕ × ℕ × ℕ

/-- Canonical undirected edge key, stored as an ordered pair of node ids. -/
abbrev Edge : Type := ℕ × ℕ

/-- Indexing a point list; the MeshView invariant says connectivity indices
are in range, so the default value is never reached on meshes satisfying it
(`mesh/checks/helpers.py` would raise on an out-of-range index). -/
def getPt (pts : List Point) (i : ℕ) : Point := pts.getD i (0, 0)

/-- Signed triangle area in XY, `0.5*((q0-p0)*(r1-p1) - (q1-p1)*(r0-p0))`,
the formula inlined in `surface_orientation` and `_tri_area_xy`
(`mesh/checks/errors.py`). -/
def triSignedArea (p q r : Point) : ℚ :=
  ((q.1 - p.1) * (r.2 - p.2) - (q.2 - p.2) * (r.1 - p.1)) / 2

/-- Shoelace signed area of a quad, matching the rolled-sum formula used for
quads in `surface_orientation` (`mesh/checks/errors.py`). -/
def quadShoelace (p0 p1 p2 p3 : Point) : ℚ :=
  (p0.1 * p1.2 - p0.2 * p1.1 + p1.1 * p2.2 - p1.2 * p2.1 +
   p2.1 * p3.2 - p2.2 * p3.1 + p3.1 * p0.2 - p3.2 * p0.1) / 2

/-- Signed area of the triangle with node indices `t` over a point table. -/
def triAreaOf (pts : List Point) (t : Tri3) : ℚ :=
  triSignedArea (getPt pts t.1) (getPt pts t.2.1) (getPt pts t.2.2)

/-- Signed shoelace area of the quad with node indices `q` over a point
table. -/
def quadAreaOf (pts : List Point) (q : Quad4) : ℚ :=
  quadShoelace (getPt pts q.1) (getPt pts q.2.1) (getPt pts q.2.2.1)
    (getPt pts q.2.2.2)

/-- Immutable mesh snapshot (`MeshView` in `mesh/checks/helpers.py`).
`build_mesh_view` normalises empty connectivity arrays to `None`, modelled
here by `Option`. -/
structure MeshView where
  mesh_path : String
  points : List Point
  tris : Option (List Tri3)
  quads : Option (List Quad4)
  cell_tags : List (String × List ℕ)
  line_tags : List (String × List ℕ)
  bbox : ℚ × ℚ × ℚ × ℚ
deriving Repr, DecidableEq

/-- Compact example payloads carried in findings: cell references
`("tri", i)` and `("quad", i)`, bare edge keys, edge keys paired with their
incident cells, and node ids. -/
inductive Example where
  | cell (kind : String) (i : ℕ)
  | edge (u v : ℕ)
  | edgeCells (u v : ℕ) (cells : List ℕ)
  | node (n : ℕ)
deriving Repr, DecidableEq

/-- Normalized finding record returned by every rule
(`mesh/checks/errors.py`, "Finding Schema"). Python detail dicts carry
string notes, hence a string association list. -/
structure Finding where
  id : String
  severity : String
  ok : Bool
  count : ℕ
  examples : List Example
  details : List (String × String)
  fixable : Bool
deriving Repr, DecidableEq

/-- Helper `_finding` of `mesh/checks/errors.py`: assembles an error-tier
finding and caps examples at 25 entries. -/
def _finding (rule_id : String) (ok : Bool) (count : ℕ) (examples : List Example)
    (details : List (String × String)) (fixable : Bool) : Finding :=
  { id := rule_id, severity := "error", ok := ok, count := count,
    examples := examples.take 25, details := details, fixable := fixable }

/-- Threshold values appearing in `DEFAULTS["thresholds"]`
(`mesh/checks/__init__.py`): numbers, strings, string lists, booleans and
`None`. -/
inductive ThVal where
  | num (q : ℚ)
  | str (s : String)
  | strs (l : List String)
  | boolean (b : Bool)
  | null
deriving Repr, DecidableEq

/-- Threshold map passed to every rule. -/
abbrev Thresholds : Type := List (String × ThVal)

/-- Undirected edge key with sorted endpoints (`hash_edge` in
`mesh/checks/helpers.py`). -/
def hash_edge (u v : ℕ) : Edge := if u < v then (u, v) else (v, u)

/-- Unified cell list: all triangle rows first, then all quad rows
(`_build_unified_cells` in `mesh/checks/helpers.py`). -/
def _build_unified_cells (tris : Option (List Tri3)) (quads : Option (List Quad4)) :
    List (List ℕ) :=
  (match tris with
   | none => []
   | some ts => ts.map (fun t => [t.1, t.2.1, t.2.2])) ++
  (match quads with
   | none => []
   | some qs => qs.map (fun q => [q.1, q.2.1, q.2.2.1, q.2.2.2]))

/-- Edges of one cell: canonicalised consecutive vertex pairs, walking the
cycle `conn[i], conn[(i+1) % k]`. -/
def cellEdgeList (conn : List ℕ) : List Edge :=
  (List.range conn.length).map fun i =>
    hash_edge (conn.getD i 0) (conn.getD ((i + 1) % conn.length) 0)

/-- Per-cell edge lists, keyed positionally by unified cell id
(`_build_cell_edges`; the Python dict has keys `0..n-1` in order). -/
def _build_cell_edges (unified_cells : List (List ℕ)) : List (List Edge) :=
  unified_cells.map cellEdgeList

/-- Python `dict.setdefault(k, []).append(v)` on an insertion-ordered
association list. -/
def setdefaultAppend {κ ν : Type} [DecidableEq κ] (m : List (κ × List ν)) (k : κ) (v : ν) :
    List (κ × List ν) :=
  if m.any (fun p => decide (p.1 = k)) then
    m.map (fun p => if p.1 = k then (p.1, p.2 ++ [v]) else p)
  else m ++ [(k, [v])]

/-- Invert cell edge lists to the edge-to-cells map (`_build_edge_cells` in
`mesh/checks/helpers.py`). -/
def _build_edge_cells (cell_edges : List (List Edge)) : List (Edge × List ℕ) :=
  cell_edges.enum.foldl
    (fun m p => p.2.foldl (fun m2 e => setdefaultAppend m2 e p.1) m) []

/-- Node to incident unified cells map (`_build_node_cells`). -/
def _build_node_cells (unified_cells : List (List ℕ)) : List (ℕ × List ℕ) :=
  unified_cells.enum.foldl
    (fun m p => p.2.foldl (fun m2 n => setdefaultAppend m2 n p.1) m) []

/-- Node to incident edges map derived from the edge-to-cells keys
(the trailing loop in `precompute_cache`). -/
def buildNodeEdges (edge_cells : List (Edge × List ℕ)) : List (ℕ × List Edge) :=
  edge_cells.foldl
    (fun m p => setdefaultAppend (setdefaultAppend m p.1.1 p.1) p.1.2 p.1) []

/-- Boundary-edge reconstruction (`_maybe_boundary_edges` in
`mesh/checks/helpers.py`): the reader exposes no line connectivity in v1, so
this returns `None` unconditionally. -/
def _maybe_boundary_edges (mv : MeshView) : Option (List Edge) := none

/-- Shared read-only cache built once per validation pass
(`precompute_cache`). The centroid, bounding-box and spatial-grid tables are
consumed only by rules that enter the registry through the `fns` parameter;
those rules are functions of the whole `MeshView` and thresholds, of which
the omitted tables are derived data. -/
structure Cache where
  unified_cells : List (List ℕ)
  cell_edges : List (List Edge)
  edge_cells : List (Edge × List ℕ)
  node_cells : List (ℕ × List ℕ)
  node_edges : List (ℕ × List Edge)
  boundary_edges : Option (List Edge)

/-- Build all one-time structures needed by checks (`precompute_cache` in
`mesh/checks/helpers.py`). -/
def precompute_cache (mv : MeshView) (cfg : Thresholds) : Cache :=
  let unified := _build_unified_cells mv.tris mv.quads
  let cell_edges := _build_cell_edges unified
  let edge_cells := _build_edge_cells cell_edges
  { unified_cells := unified
    cell_edges := cell_edges
    edge_cells := edge_cells
    node_cells := _build_node_cells unified
    node_edges := buildNodeEdges edge_cells
    boundary_edges := _maybe_boundary_edges mv }

/-- Triangle indices flagged by `surface_orientation`: positions whose
signed area is strictly negative (`np.nonzero(areas < 0.0)[0]`). -/
def surfaceOrientationBadTris (mv : MeshView) : List ℕ :=
  match mv.tris with
  | none => []
  | some ts => (List.range ts.length).filter
      (fun i => decide (triAreaOf mv.points (ts.getD i (0, 0, 0)) < 0))

/-- Quad indices flagged by `surface_orientation`: positions whose shoelace
area is strictly negative. -/
def surfaceOrientationBadQuads (mv : MeshView) : List ℕ :=
  match mv.quads with
  | none => []
  | some qs => (List.range qs.length).filter
      (fun i => decide (quadAreaOf mv.points (qs.getD i (0, 0, 0, 0)) < 0))

/-- Rule `surface_orientation` (`mesh/checks/errors.py`): flag cells with
negative signed area (CW winding) in XY. -/
def surface_orientation (mv : MeshView) (th : Thresholds) (cache : Cache) : Finding :=
  let bad := (surfaceOrientationBadTris mv).map (Example.cell "tri") ++
    (surfaceOrientationBadQuads mv).map (Example.cell "quad")
  _finding "surface_orientation" bad.isEmpty bad.length (bad.take 20)
    [("note", "Negative signed area implies CW orientation in XY plane.")] true

/-- Position `pos` is marked duplicate by the `np.unique` loop of
`duplicate_elements`: some key with multiplicity above one has its first
occurrence at `idx` and `pos` lies in the slice `idx+1 : idx+cnt`.
`np.unique(keys, return_index=True, return_counts=True)` yields exactly the
first-occurrence index and the multiplicity of each distinct key. -/
def dupMarked (keys : List Int) (pos : ℕ) : Bool :=
  keys.any fun k =>
    decide (1 < keys.count k) && decide (keys.indexOf k < pos) &&
      decide (pos < keys.indexOf k + keys.count k)

/-- All positions marked by the duplicate mask, in ascending order
(`np.nonzero(dup_mask)[0]`). -/
def dupMarkedPositions (keys : List Int) : List ℕ :=
  (List.range keys.length).filter (dupMarked keys)

/-- Insertion into an ascending list of naturals; building block of
`sortNat`. -/
def insertSorted (x : ℕ) : List ℕ → List ℕ
  | [] => [x]
  | y :: ys => if x ≤ y then x :: y :: ys else y :: insertSorted x ys

/-- Ascending insertion sort of naturals, modelling a `np.sort` row or a
Python `sorted` call. -/
def sortNat (l : List ℕ) : List ℕ := l.foldr insertSorted []

/-- Row-wise `np.sort` for a triangle connectivity row. -/
def np_sort_row3 (t : Tri3) : Tri3 :=
  let l := sortNat [t.1, t.2.1, t.2.2]
  (l.getD 0 0, l.getD 1 0, l.getD 2 0)

/-- Row-wise `np.sort` for a quad connectivity row. -/
def np_sort_row4 (q : Quad4) : Quad4 :=
  let l := sortNat [q.1, q.2.1, q.2.2.1, q.2.2.2]
  (l.getD 0 0, l.getD 1 0, l.getD 2 0, l.getD 3 0)

/-- Wrap an integer into the twos-complement int64 range, as numpy int64
arithmetic silently does. -/
def int64Wrap (n : Int) : Int := (n + 2 ^ 63) % 2 ^ 64 - 2 ^ 63

/-- Unsigned 64-bit representative of an int64 value (its bit pattern). -/
def uint64Bits (n : Int) : ℕ := (n % 2 ^ 64).toNat

/-- Bitwise XOR of two int64 values via their bit patterns. -/
def int64Xor (a b : Int) : Int :=
  int64Wrap (Int.ofNat (Nat.xor (uint64Bits a) (uint64Bits b)))

/-- Multiplication of int64 values with numpy wrap-around. -/
def int64Mul (a b : Int) : Int := int64Wrap (a * b)

/-- Lexicographic hash key of a sorted triangle row, as built in
`duplicate_elements` (`mesh/checks/errors.py`):
`a*73856093 ^ b*19349663 ^ c*83492791` in int64 arithmetic. -/
def tri_dup_key (t : Tri3) : Int :=
  let s := np_sort_row3 t
  int64Xor (int64Xor (int64Mul (Int.ofNat s.1) 73856093)
      (int64Mul (Int.ofNat s.2.1) 19349663))
    (int64Mul (Int.ofNat s.2.2) 83492791)

/-- Hash key of a sorted quad row, with the extra `d*2654435761` term. -/
def quad_dup_key (q : Quad4) : Int :=
  let s := np_sort_row4 q
  int64Xor (int64Xor (int64Xor (int64Mul (Int.ofNat s.1) 73856093)
        (int64Mul (Int.ofNat s.2.1) 19349663))
      (int64Mul (Int.ofNat s.2.2.1) 83492791))
    (int64Mul (Int.ofNat s.2.2.2) 2654435761)

/-- Rule `duplicate_elements` (`mesh/checks/errors.py`): hash sorted
connectivity rows, and mark the contiguous block after the first occurrence
of every key of multiplicity above one. -/
def duplicate_elements (mv : MeshView) (th : Thresholds) (cache : Cache) : Finding :=
  let triDups : List ℕ :=
    match mv.tris with
    | none => []
    | some ts => dupMarkedPositions (ts.map tri_dup_key)
  let quadDups : List ℕ :=
    match mv.quads with
    | none => []
    | some qs => dupMarkedPositions (qs.map quad_dup_key)
  let dup_ids := triDups.map (Example.cell "tri") ++
    quadDups.map (Example.cell "quad")
  _finding "duplicate_elements" dup_ids.isEmpty dup_ids.length (dup_ids.take 20)
    [("note", "Duplicate elements share identical node sets.")] true

/-- Keep the first occurrence of every value, in order; models iterating
the keys of a Python counting dict. -/
def firstOccurrencesAux {α : Type} [DecidableEq α] (seen : List α) : List α → List α
  | [] => []
  | a :: l =>
    if a ∈ seen then firstOccurrencesAux seen l
    else a :: firstOccurrencesAux (a :: seen) l

/-- First occurrences of a list, left to right. -/
def firstOccurrences {α : Type} [DecidableEq α] (l : List α) : List α :=
  firstOccurrencesAux [] l

/-- Rule `multiple_edges` (`mesh/checks/errors.py`): count every key of the
edge-to-cells map and flag keys with count above one. -/
def multiple_edges (mv : MeshView) (th : Thresholds) (cache : Cache) : Finding :=
  let keys := cache.edge_cells.map Prod.fst
  let dups := (firstOccurrences keys).filter (fun e => decide (1 < keys.count e))
  _finding "multiple_edges" dups.isEmpty dups.length
    ((dups.map (fun e => Example.edge e.1 e.2)).take 20)
    [("note", "More than one topological edge between the same two nodes.")] true

/-- Rule `uncovered_faces` (`mesh/checks/errors.py`): degree-1 edges not in
the boundary set; skips with `ok=True` when boundary edges are absent. -/
def uncovered_faces (mv : MeshView) (th : Thresholds) (cache : Cache) : Finding :=
  match cache.boundary_edges with
  | none =>
    { id := "uncovered_faces", severity := "error", ok := true, count := 0,
      examples := [], details := [("skipped", "boundary edges not provided")],
      fixable := true }
  | some boundary_edges =>
    let uncovered := (cache.edge_cells.filter
      (fun p => decide (p.2.length = 1) && !(decide (p.1 ∈ boundary_edges)))).map Prod.fst
    { id := "uncovered_faces", severity := "error", ok := uncovered.isEmpty,
      count := uncovered.length,
      examples := (uncovered.map (fun e => Example.edge e.1 e.2)).take 20,
      details := [("note", "degree-1 non-boundary edges should not exist")],
      fixable := true }

/-- Rule `missing_internal_faces` (`mesh/checks/errors.py`): non-boundary
edges must have degree exactly two; skips when boundary edges are absent. -/
def missing_internal_faces (mv : MeshView) (th : Thresholds) (cache : Cache) : Finding :=
  match cache.boundary_edges with
  | none =>
    { id := "missing_internal_faces", severity := "error", ok := true, count := 0,
      examples := [], details := [("skipped", "boundary edges not provided")],
      fixable := true }
  | some boundary_edges =>
    let bad := (cache.edge_cells.filter
      (fun p => !(decide (p.1 ∈ boundary_edges)) && !(decide (p.2.length = 2))))
    { id := "missing_internal_faces", severity := "error", ok := bad.isEmpty,
      count := bad.length,
      examples := (bad.map (fun p => Example.edgeCells p.1.1 p.1.2 p.2)).take 20,
      details := [("note", "internal edges must be shared by exactly two cells")],
      fixable := true }

/-- Signature shared by all rule check functions:
`fn(mv, thresholds, cache) -> finding`. -/
abbrev CheckFn : Type := MeshView → Thresholds → Cache → Finding

/-- Registry entry (`RuleSpec` in `mesh/checks/registry.py`). Severity is a
plain string there, constrained to "error" or "warn" at registration. -/
structure RuleSpec where
  id : String
  fn : CheckFn
  severity : String
  fixable : Bool

/-- Registration guard `_add` of `mesh/checks/registry.py`: refuse duplicate
ids and severities outside error/warn. The Python function mutates a global
dict only after both checks pass; functionally, the error case yields no new
registry, so the old one is untouched by construction. -/
def _add (registry : List RuleSpec) (spec : RuleSpec) : Except String (List RuleSpec) :=
  if registry.any (fun s => s.id == spec.id) then
    Except.error ("Duplicate rule id in registry: " ++ spec.id)
  else if !(spec.severity == "error" || spec.severity == "warn") then
    Except.error ("Invalid severity for " ++ spec.id ++ ": " ++ spec.severity)
  else Except.ok (registry ++ [spec])

/-- The registry contents in registration order (`mesh/checks/registry.py`).
Rules whose bodies are not embedded here (they use square roots, inverse
cosines, the spatial grid, or the external `meshio` reader) are supplied by
the parameter `fns`; ids, severities and fixability flags are the concrete
ones from the source. `warnings.py` exists, so the warn block is present. -/
def REGISTRY (fns : String → CheckFn) : List RuleSpec :=
  [⟨"surface_orientation", surface_orientation, "error", true⟩,
   ⟨"negative_jacobians", fns "negative_jacobians", "error", true⟩,
   ⟨"duplicate_elements", duplicate_elements, "error", true⟩,
   ⟨"multiple_edges", multiple_edges, "error", true⟩,
   ⟨"nonmanifold", fns "nonmanifold", "error", true⟩,
   ⟨"overlapping_elements", fns "overlapping_elements", "error", true⟩,
   ⟨"uncovered_faces", uncovered_faces, "error", true⟩,
   ⟨"missing_internal_faces", missing_internal_faces, "error", true⟩,
   ⟨"bl_continuity", fns "bl_continuity", "error", true⟩,
   ⟨"missing_physical_groups", fns "missing_physical_groups", "error", false⟩,
   ⟨"two_single_edges", fns "two_single_edges", "warn", true⟩,
   ⟨"tiny_elements", fns "tiny_elements", "warn", true⟩,
   ⟨"min_angle_tris", fns "min_angle_tris", "warn", true⟩,
   ⟨"quad_skewness_orthogonality", fns "quad_skewness_orthogonality", "warn", true⟩,
   ⟨"grading_spikes", fns "grading_spikes", "warn", true⟩,
   ⟨"first_layer_height", fns "first_layer_height", "warn", false⟩,
   ⟨"boundary_coverage", fns "boundary_coverage", "warn", true⟩,
   ⟨"untagged_entities", fns "untagged_entities", "warn", true⟩]

/-- Deterministic execution order (`RULES_ORDER` in
`mesh/checks/registry.py`), warn rules appended since `warnings.py` is
present. -/
def RULES_ORDER : List String :=
  ["surface_orientation", "negative_jacobians", "duplicate_elements",
   "multiple_edges", "nonmanifold", "overlapping_elements", "uncovered_faces",
   "missing_internal_faces", "missing_physical_groups", "bl_continuity",
   "two_single_edges", "tiny_elements", "min_angle_tris",
   "quad_skewness_orthogonality", "grading_spikes", "first_layer_height",
   "boundary_coverage", "untagged_entities"]

/-- Filter `RULES_ORDER` by an enable map (`get_enabled_ids` in
`mesh/checks/registry.py`): `None` or an empty map enables everything,
absent ids default to enabled. -/
def get_enabled_ids (enabled_map : Option (List (String × Bool))) : List String :=
  match enabled_map with
  | none => RULES_ORDER
  | some m =>
    if m.isEmpty then RULES_ORDER
    else RULES_ORDER.filter (fun rid => (m.lookup rid).getD true)

/-- Default enable policy (`DEFAULTS["enabled"]` in
`mesh/checks/__init__.py`): note `overlapping_elements` and
`first_layer_height` default to disabled. -/
def DEFAULTS_enabled : List (String × Bool) :=
  [("surface_orientation", true), ("negative_jacobians", true),
   ("duplicate_elements", true), ("multiple_edges", true),
   ("nonmanifold", true), ("overlapping_elements", false),
   ("uncovered_faces", true), ("missing_internal_faces", true),
   ("missing_physical_groups", true), ("bl_continuity", true),
   ("two_single_edges", true), ("tiny_elements", true),
   ("min_angle_tris", true), ("quad_skewness_orthogonality", true),
   ("grading_spikes", true), ("first_layer_height", false),
   ("boundary_coverage", true), ("untagged_entities", true)]

/-- Default thresholds (`DEFAULTS["thresholds"]` in
`mesh/checks/__init__.py`). -/
def DEFAULTS_thresholds : Thresholds :=
  [("min_angle_deg", ThVal.num 20), ("quad_skew_p95", ThVal.num (85 / 100)),
   ("grading_ratio_max", ThVal.num (5 / 2)),
   ("tiny_area_rel", ThVal.num (1 / 1000)), ("tiny_area_abs", ThVal.num 0),
   ("collinear_eps", ThVal.num (1 / 10 ^ 12)),
   ("overlap_grid_bins", ThVal.num 96), ("wall_name", ThVal.str "airfoil"),
   ("first_layer_target", ThVal.null),
   ("required_groups",
     ThVal.strs ["inlet", "outlet", "top", "bottom", "airfoil", "fluid"]),
   ("group_dims", ThVal.null),
   ("strict_if_no_field_data", ThVal.boolean false)]

/-- Right-biased merge of one flat sub-map, the action of `_deep_merge`
(`mesh/checks/__init__.py`) on the `enabled` and `thresholds` leaves:
existing keys are overwritten in place, new keys are appended in update
order, neither input is mutated. -/
def _deep_merge {α : Type} (base upd : List (String × α)) : List (String × α) :=
  base.map (fun p =>
    match upd.lookup p.1 with
    | some v => (p.1, v)
    | none => p) ++
  upd.filter (fun p => (base.lookup p.1).isNone)

/-- User configuration for `run_checks`: overrides for the two `DEFAULTS`
sub-maps. An absent user config (`config=None` / `{}`) is the value with
both lists empty. -/
structure Config where
  enabled : List (String × Bool)
  thresholds : Thresholds

/-- Force the registry-declared identity onto a rule result, as the
orchestrator loop does after calling each rule
(`finding["severity"] = spec.severity; finding["id"] = rid`). -/
def withIdSeverity (f : Finding) (rid sev : String) : Finding :=
  { f with id := rid, severity := sev }

/-- The findings collected by the `run_checks` loop, keyed by rule id in
execution order: enabled ids are looked up in the registry, unregistered
ids are skipped gracefully, and each finding gets the registry id and
severity stamped on. -/
def check_results (fns : String → CheckFn) (mv : MeshView) (config : Config) :
    List (String × Finding) :=
  let cfgEnabled := _deep_merge DEFAULTS_enabled config.enabled
  let cfgThresholds := _deep_merge DEFAULTS_thresholds config.thresholds
  let cache := precompute_cache mv cfgThresholds
  let registry := REGISTRY fns
  (get_enabled_ids (some cfgEnabled)).filterMap fun rid =>
    match registry.find? (fun s => s.id == rid) with
    | none => none
    | some spec => some (rid, withIdSeverity (spec.fn mv cfgThresholds cache) rid spec.severity)

/-- Overall verdict loop of `run_checks`: `ok` starts true and flips to
false on the first collected finding whose registry severity is "error" and
whose `ok` field is false. -/
def overall_ok (registry : List RuleSpec) (results : List (String × Finding)) : Bool :=
  !(results.any fun p =>
    match registry.find? (fun s => s.id == p.1) with
    | some spec => spec.severity == "error" && !p.2.ok
    | none => false)

/-- Metadata snapshot (`_meta` in `mesh/checks/__init__.py`). -/
structure Meta where
  mesh_path : String
  n_points : ℕ
  n_tris : ℕ
  n_quads : ℕ
  thresholds : Thresholds
  enabled : List (String × Bool)

/-- Payload of `run_checks`. -/
structure Report where
  ok : Bool
  rules : List (String × Finding)
  meta : Meta

/-- Orchestrator `run_checks` (`mesh/checks/__init__.py`): deep-merge the
user config over `DEFAULTS`, build the cache once, run every enabled rule in
registry order, and aggregate the overall `ok`. The mesh read from
`msh_path` is the input `mv`; rules not embedded here come from `fns`. -/
def run_checks (fns : String → CheckFn) (mv : MeshView) (config : Config) : Report :=
  let cfgEnabled := _deep_merge DEFAULTS_enabled config.enabled
  let cfgThresholds := _deep_merge DEFAULTS_thresholds config.thresholds
  let results := check_results fns mv config
  { ok := overall_ok (REGISTRY fns) results
    rules := results
    meta := { mesh_path := mv.mesh_path, n_points := mv.points.length,
              n_tris := (match mv.tris with | none => 0 | some ts => ts.length),
              n_quads := (match mv.quads with | none => 0 | some qs => qs.length),
              thresholds := cfgThresholds, enabled := cfgEnabled } }

/-- Mutable repair-side mesh (`Mesh` dataclass in `mesh/repair/ops.py`),
embedded functionally: every edit returns the updated mesh. -/
structure Mesh where
  path : String
  points : List Point
  tris : Option (List Tri3)
  quads : Option (List Quad4)
  cell_tags : List (String × List ℕ)
  line_tags : List (String × List ℕ)
  dim : ℕ
deriving Repr, DecidableEq

/-- Delete the rows of `l` whose position is listed in `idxs` (the boolean
mask update in `remove_cells`). -/
def remove_rows {α : Type} (l : List α) (idxs : List ℕ) : List α :=
  (l.enum.filter (fun p => !(idxs.contains p.1))).map Prod.snd

/-- Batch removal op `remove_cells` (`mesh/repair/ops.py`): deduplicate the
index list, drop those rows, and report how many indices were requested.
The Python `else` branch raises `ValueError` for other kinds; both fixers
only ever pass "tri" or "quad", so it is modelled as a no-op here. -/
def remove_cells (mesh : Mesh) (kind : String) (idxs : List ℕ) : Mesh × ℕ :=
  if idxs.isEmpty then (mesh, 0)
  else if kind = "tri" then
    match mesh.tris with
    | none => (mesh, 0)
    | some ts =>
      ({ mesh with tris := some (remove_rows ts idxs) },
       ((sortNat idxs.dedup).reverse).length)
  else if kind = "quad" then
    match mesh.quads with
    | none => (mesh, 0)
    | some qs =>
      ({ mesh with quads := some (remove_rows qs idxs) },
       ((sortNat idxs.dedup).reverse).length)
  else (mesh, 0)

/-- Reverse the node order of a triangle row (`A[i,:] = A[i,::-1]`). -/
def revRow3 (t : Tri3) : Tri3 := (t.2.2, t.2.1, t.1)

/-- Reverse the node order of a quad row. -/
def revRow4 (q : Quad4) : Quad4 := (q.2.2.2, q.2.2.1, q.2.1, q.1)

/-- Apply a row reversal at every listed position in turn, as the loop in
`reorient_cells` does. -/
def reorientList {α : Type} (rev : α → α) (l : List α) (idxs : List ℕ) : List α :=
  idxs.foldl (fun acc i => List.modify rev i acc) l

/-- Orientation flip op `reorient_cells` (`mesh/repair/ops.py`): reverse the
local node order of the listed cells and report the list length. The
`ValueError` kind branch is modelled as a no-op, as for `remove_cells`. -/
def reorient_cells (mesh : Mesh) (kind : String) (idxs : List ℕ) : Mesh × ℕ :=
  if idxs.isEmpty then (mesh, 0)
  else if kind = "tri" then
    match mesh.tris with
    | none => (mesh, 0)
    | some ts => ({ mesh with tris := some (reorientList revRow3 ts idxs) }, idxs.length)
  else if kind = "quad" then
    match mesh.quads with
    | none => (mesh, 0)
    | some qs => ({ mesh with quads := some (reorientList revRow4 qs idxs) }, idxs.length)
  else (mesh, 0)

/-- Modelled from the spec: `canon_tri` lives in `mesh/repair/utils.py`,
which is not among the sources; per the spec the duplicates fixer hashes
"canonical node tuples" built by canonicalising the node tuple as its sorted
tuple. -/
def canon_tri (t : Tri3) : Tri3 := np_sort_row3 t

/-- Modelled from the spec: `canon_quad` (also from the missing
`mesh/repair/utils.py`), the sorted four-node tuple. -/
def canon_quad (q : Quad4) : Quad4 := np_sort_row4 q

/-- Positions whose key was already seen strictly earlier, scanning left to
right with a seen-set — the `if key in seen` loop of
`_reconfirm_duplicates` (`mesh/repair/fixers/duplicates.py`). -/
def dupIdxAux {α : Type} [DecidableEq α] (seen : List α) : List α → ℕ → List ℕ
  | [], _ => []
  | k :: rest, i =>
    if k ∈ seen then i :: dupIdxAux seen rest (i + 1)
    else dupIdxAux (k :: seen) rest (i + 1)

/-- All non-first occurrences in a key list, in scan order. -/
def dupIdxList {α : Type} [DecidableEq α] (keys : List α) : List ℕ :=
  dupIdxAux [] keys 0

/-- Triangle indices whose canonical key repeats an earlier row, read from
the live mesh (the triangle loop of `_reconfirm_duplicates`). -/
def triDupsOf (mesh : Mesh) : List ℕ :=
  match mesh.tris with
  | none => []
  | some ts => dupIdxList (ts.map canon_tri)

/-- Quad indices whose canonical key repeats an earlier row. -/
def quadDupsOf (mesh : Mesh) : List ℕ :=
  match mesh.quads with
  | none => []
  | some qs => dupIdxList (qs.map canon_quad)

/-- Recompute duplicate indices from the live mesh
(`_reconfirm_duplicates`); the finding examples argument is deliberately
ignored, matching the source. -/
def _reconfirm_duplicates (mesh : Mesh) (examples : List Example) : List ℕ × List ℕ :=
  (triDupsOf mesh, quadDupsOf mesh)

/-- Fixer result record with applied, waived and notes fields. -/
structure FixResult where
  applied : ℕ
  waived : ℕ
  notes : String
deriving Repr, DecidableEq

/-- Per-rule repair options, e.g. mapping action to remove. -/
abbrev RuleCfg : Type := List (String × String)

/-- Duplicates fixer (`fix` in `mesh/repair/fixers/duplicates.py`):
reconfirm duplicate groups from the live mesh, then remove all but the
first occurrence per canonical key. -/
def fix_duplicates (mesh : Mesh) (finding : Finding) (cfg : RuleCfg) : Mesh × FixResult :=
  let buckets := _reconfirm_duplicates mesh finding.examples
  let step1 := if buckets.1.isEmpty then (mesh, 0) else remove_cells mesh "tri" buckets.1
  let step2 := if buckets.2.isEmpty then (step1.1, 0) else remove_cells step1.1 "quad" buckets.2
  let applied := step1.2 + step2.2
  let notes := if applied = 0 then "No duplicates after reconfirmation."
    else "Removed " ++ toString applied ++ " duplicate elements."
  (step2.1, { applied := applied, waived := 0, notes := notes })

/-- Triangle indices among the examples of a finding
(`[int(i) for (k, i) in ex if k == "tri"]`). -/
def triExampleIdxs (examples : List Example) : List ℕ :=
  examples.filterMap fun e =>
    match e with
    | Example.cell "tri" i => some i
    | _ => none

/-- Quad indices among the examples of a finding. -/
def quadExampleIdxs (examples : List Example) : List ℕ :=
  examples.filterMap fun e =>
    match e with
    | Example.cell "quad" i => some i
    | _ => none

/-- Orientation fixer (`fix` in `mesh/repair/fixers/orientation.py`): trust
the finding examples and flip the listed cells. -/
def fix_orientation (mesh : Mesh) (finding : Finding) (cfg : RuleCfg) : Mesh × FixResult :=
  let tri_idxs := triExampleIdxs finding.examples
  let quad_idxs := quadExampleIdxs finding.examples
  let step1 := if tri_idxs.isEmpty then (mesh, 0) else reorient_cells mesh "tri" tri_idxs
  let step2 := if quad_idxs.isEmpty then (step1.1, 0) else reorient_cells step1.1 "quad" quad_idxs
  let applied := step1.2 + step2.2
  (step2.1,
   { applied := applied, waived := 0,
     notes := if applied = 0 then "No cells to reorient."
       else "Reoriented " ++ toString applied ++ " cells." })

/-- Modelled from the spec: `build_edge_cells` lives in the missing
`mesh/repair/utils.py`; per the spec and its call site it maps each
undirected edge to its incident `(kind, index)` cells over both element
types. -/
def build_edge_cells (points : List Point) (tris : Option (List Tri3))
    (quads : Option (List Quad4)) : List (Edge × List (String × ℕ)) :=
  let m1 := (match tris with
    | none => []
    | some ts => ts.enum.foldl (fun m p =>
        (cellEdgeList [p.2.1, p.2.2.1, p.2.2.2]).foldl
          (fun m2 e => setdefaultAppend m2 e ("tri", p.1)) m) [])
  (match quads with
   | none => m1
   | some qs => qs.enum.foldl (fun m p =>
       (cellEdgeList [p.2.1, p.2.2.1, p.2.2.2.1, p.2.2.2.2]).foldl
         (fun m2 e => setdefaultAppend m2 e ("quad", p.1)) m) m1)

/-- Absolute cell area used for ranking (`_cell_area` in
`mesh/repair/fixers/multi_edges.py`); any kind other than "tri" takes the
quad branch, as in the source. -/
def _cell_area (mesh : Mesh) (kind : String) (idx : ℕ) : ℚ :=
  if kind = "tri" then
    |triAreaOf mesh.points ((mesh.tris.getD []).getD idx (0, 0, 0))|
  else
    |quadAreaOf mesh.points ((mesh.quads.getD []).getD idx (0, 0, 0, 0))|

/-- Insertion by a boolean ordering, building block of `sortByLe`. -/
def insertByLe {α : Type} (le : α → α → Bool) (x : α) : List α → List α
  | [] => [x]
  | y :: ys => if le x y then x :: y :: ys else y :: insertByLe le x ys

/-- Ascending sort by a boolean ordering, modelling Python `sorted` with a
key function. -/
def sortByLe {α : Type} (le : α → α → Bool) (l : List α) : List α :=
  l.foldr (insertByLe le) []

/-- Multi-edge fixer (`fix` in `mesh/repair/fixers/multi_edges.py`): for
every edge with more than two incident cells, rank the incidents by area
ascending, keep the two largest, remove the rest. -/
def fix_multi_edges (mesh : Mesh) (finding : Finding) (cfg : RuleCfg) : Mesh × FixResult :=
  let edge_cells := build_edge_cells mesh.points mesh.tris mesh.quads
  let to_remove := edge_cells.foldl
    (fun (acc : List ℕ × List ℕ) p =>
      if p.2.length ≤ 2 then acc
      else
        let ranked := sortByLe
          (fun a b => decide (_cell_area mesh a.1 a.2 ≤ _cell_area mesh b.1 b.2)) p.2
        (ranked.dropLast.dropLast).foldl
          (fun (acc2 : List ℕ × List ℕ) kc =>
            if kc.1 = "tri" then (acc2.1 ++ [kc.2], acc2.2)
            else (acc2.1, acc2.2 ++ [kc.2])) acc)
    ([], [])
  let step1 := remove_cells mesh "tri" to_remove.1
  let step2 := remove_cells step1.1 "quad" to_remove.2
  let applied := step1.2 + step2.2
  (step2.1,
   { applied := applied, waived := 0,
     notes := if applied = 0 then "No oversubscribed edges."
       else "Edges with >2 incidence fixed; removed " ++ toString applied ++ " cells." })

/-- Repair plan (`DEFAULT_PLAN` shape in `mesh/repair/plan.py`). -/
structure Plan where
  rules : List (String × RuleCfg)
  verify : Bool
  write_in_place : Bool
  keep_backup : Bool
deriving Repr, DecidableEq

/-- User plan overrides: nested rule options plus optional flag overrides
(an absent key in the Python override dict is `none`). -/
structure UserPlan where
  rules : List (String × RuleCfg)
  verify : Option Bool
  write_in_place : Option Bool
  keep_backup : Option Bool
deriving Repr, DecidableEq

/-- Empty user plan, the `plan or {}` default of `run_repair`. -/
def emptyUserPlan : UserPlan :=
  { rules := [], verify := none, write_in_place := none, keep_backup := none }

/-- Default repair policy (`DEFAULT_PLAN` in `mesh/repair/plan.py`). -/
def DEFAULT_PLAN : Plan :=
  { rules := [("duplicate_elements", [("action", "remove"), ("prefer", "first")]),
              ("multiple_edges", [("action", "dedupe")]),
              ("surface_orientation", [("action", "reorient"), ("target", "CCW")])]
    verify := false
    write_in_place := false
    keep_backup := true }

/-- Deep, right-biased merge of the nested `rules` maps of two plans: rule
entries present in both sides merge their option dicts, new rules are
appended. -/
def merge_rules (base upd : List (String × RuleCfg)) : List (String × RuleCfg) :=
  base.map (fun p =>
    match upd.lookup p.1 with
    | some v => (p.1, _deep_merge p.2 v)
    | none => p) ++
  upd.filter (fun p => (base.lookup p.1).isNone)

/-- Plan merge (`merge_plan` in `mesh/repair/plan.py`), right-biased and
non-mutating. -/
def merge_plan (base : Plan) (upd : UserPlan) : Plan :=
  { rules := merge_rules base.rules upd.rules
    verify := upd.verify.getD base.verify
    write_in_place := upd.write_in_place.getD base.write_in_place
    keep_backup := upd.keep_backup.getD base.keep_backup }

/-- Fixer registry (`FIXERS` in `mesh/repair/registry.py`). -/
def FIXERS (rid : String) : Option (Mesh → Finding → RuleCfg → Mesh × FixResult) :=
  if rid = "duplicate_elements" then some fix_duplicates
  else if rid = "multiple_edges" then some fix_multi_edges
  else if rid = "surface_orientation" then some fix_orientation
  else none

/-- Fixed repair execution order (`ORDER` in `mesh/repair/registry.py`):
topology first, then orientation. -/
def ORDER : List String :=
  ["duplicate_elements", "multiple_edges", "surface_orientation"]

/-- Serialisation guard `write_mesh_safe` (`mesh/repair/ops.py`): a hard
`RuntimeError` when `meshio` is unavailable, otherwise the mesh is written
to `out_path` (the serialised byte content is produced by the external
`meshio` collaborator and is not modelled). -/
def write_mesh_safe (hasMeshio : Bool) (mesh : Mesh) (out_path : String) :
    Except String String :=
  if !hasMeshio then
    Except.error
      "meshio not installed; cannot write repaired mesh. Use dry_run=True or install meshio."
  else Except.ok out_path

/-- Sibling audit-log path: `Path(p).with_suffix(".repair.json")` replaces
the final extension. -/
def with_suffix_repair_json (p : String) : String :=
  let parts := p.splitOn "."
  if parts.length ≤ 1 then p ++ ".repair.json"
  else String.intercalate "." parts.dropLast ++ ".repair.json"

/-- Result payload of `run_repair` (`mesh/repair/__init__.py`). -/
structure RepairResult where
  ok : Bool
  msh_path : String
  applied : List (String × ℕ × String)
  skipped : List (String × String)
  waived : List (String × ℕ × String)
  log : Option String
deriving Repr, DecidableEq

/-- Folding state of the fixer loop in `run_repair`. -/
structure RepairState where
  mesh : Mesh
  applied : List (String × ℕ × String)
  skipped : List (String × String)
  waived : List (String × ℕ × String)

/-- Repair orchestrator `run_repair` (`mesh/repair/__init__.py`). The mesh
read from `msh_path` is the input `R` (`mesh_from_reader` copies it and
stamps the path); `hasMeshio` is the availability of the optional `meshio`
dependency; the second component of a successful result lists the file
paths written, so a dry run returns the empty list. -/
def run_repair (hasMeshio : Bool) (R : Mesh) (msh_path : String)
    (findings : List (String × Finding)) (plan : Option UserPlan)
    (dry_run : Bool) (out_path : Option String) :
    Except String (RepairResult × List String) :=
  let cfg := merge_plan DEFAULT_PLAN (plan.getD emptyUserPlan)
  let mesh0 : Mesh := { R with path := msh_path }
  let st := ORDER.foldl
    (fun (st : RepairState) rid =>
      match FIXERS rid with
      | none => st
      | some fn =>
        let rule_cfg := (cfg.rules.lookup rid).getD []
        let action := ((rule_cfg.lookup "action").getD "").toLower
        if action = "skip" ∨ action = "disabled" ∨ action = "off" then
          { st with skipped := st.skipped ++ [(rid, "disabled by plan")] }
        else
          match findings.lookup rid with
          | none => { st with skipped := st.skipped ++ [(rid, "no finding for rule")] }
          | some finding =>
            let out := fn st.mesh finding rule_cfg
            if 0 < out.2.applied then
              { st with mesh := out.1,
                        applied := st.applied ++ [(rid, out.2.applied, out.2.notes)] }
            else if 0 < out.2.waived then
              { st with mesh := out.1,
                        waived := st.waived ++ [(rid, out.2.waived, out.2.notes)] }
            else
              { st with mesh := out.1, skipped := st.skipped ++ [(rid, "no-op")] })
    { mesh := mesh0, applied := [], skipped := [], waived := [] }
  let outp := out_path.getD msh_path
  if dry_run then
    Except.ok ({ ok := true, msh_path := msh_path, applied := st.applied,
                 skipped := st.skipped, waived := st.waived, log := none }, [])
  else
    match write_mesh_safe hasMeshio st.mesh outp with
    | Except.error e => Except.error e
    | Except.ok written =>
      let log_path := with_suffix_repair_json written
      Except.ok ({ ok := true, msh_path := written, applied := st.applied,
                   skipped := st.skipped, waived := st.waived,
                   log := some log_path }, [written, log_path])

/-- C10: for every mesh and configuration, the `uncovered_faces` and
`missing_internal_faces` rules applied to the cache built by
`precompute_cache` return `ok = true` with a `skipped` detail, because
`_maybe_boundary_edges` unconditionally returns `None`; these two
error-tier rules can therefore never fail validation in the current code. -/
theorem boundary_rules_always_skip (mv : MeshView) (cfg th : Thresholds) :
    (uncovered_faces mv th (precompute_cache mv cfg)).ok = true ∧
    (uncovered_faces mv th (precompute_cache mv cfg)).details =
      [("skipped", "boundary edges not provided")] ∧
    (missing_internal_faces mv th (precompute_cache mv cfg)).ok = true ∧
    (missing_internal_faces mv th (precompute_cache mv cfg)).details =
      [("skipped", "boundary edges not provided")] ∧
    _maybe_boundary_edges mv = none :=
  ⟨rfl, rfl, rfl, rfl, rfl⟩

/-- C8: `run_repair` with `dry_run = true` writes no files, returns
`log = None` and `msh_path` equal to the input path (the edited mesh stays
in memory); with `dry_run = false` and `meshio` unavailable the write step
raises the explicit `RuntimeError` of `write_mesh_safe` instead of silently
skipping. -/
theorem run_repair_dry_run_and_write_guard :
    (∀ (hasMeshio : Bool) (R : Mesh) (msh_path : String)
        (findings : List (String × Finding)) (plan : Option UserPlan)
        (out_path : Option String),
      ∃ res, run_repair hasMeshio R msh_path findings plan true out_path =
          Except.ok (res, []) ∧
        res.log = none ∧ res.msh_path = msh_path ∧ res.ok = true) ∧
    (∀ (R : Mesh) (msh_path : String) (findings : List (String × Finding))
        (plan : Option UserPlan) (out_path : Option String),
      run_repair false R msh_path findings plan false out_path =
        Except.error
          "meshio not installed; cannot write repaired mesh. Use dry_run=True or install meshio.") :=
  ⟨fun _ _ _ _ _ _ => ⟨_, rfl, rfl, rfl, rfl⟩, fun _ _ _ _ _ => rfl⟩

/-- C9: `_add` raises exactly when the id is already registered or the
severity is outside error/warn, and otherwise appends the spec; the
functional embedding returns the old registry untouched in the error case
by construction. -/
theorem registry_add_error_iff (registry : List RuleSpec) (spec : RuleSpec) :
    ((∃ msg, _add registry spec = Except.error msg) ↔
      (∃ s ∈ registry, s.id = spec.id) ∨
        ¬(spec.severity = "error" ∨ spec.severity = "warn")) ∧
    (¬(∃ s ∈ registry, s.id = spec.id) →
      (spec.severity = "error" ∨ spec.severity = "warn") →
      _add registry spec = Except.ok (registry ++ [spec])) := by
  have hany : registry.any (fun s => s.id == spec.id) = true ↔
      ∃ s ∈ registry, s.id = spec.id := by
    simp [List.any_eq_true]
  have hsev : (spec.severity == "error" || spec.severity == "warn") = true ↔
      (spec.severity = "error" ∨ spec.severity = "warn") := by
    simp
  unfold _add
  split_ifs with h1 h2
  · exact ⟨⟨fun _ => Or.inl (hany.mp h1), fun _ => ⟨_, rfl⟩⟩,
      fun hn _ => absurd (hany.mp h1) hn⟩
  · have hb : (spec.severity == "error" || spec.severity == "warn") = false := by
      simpa using h2
    have h2x : ¬(spec.severity = "error" ∨ spec.severity = "warn") := fun hor => by
      rw [hsev.mpr hor] at hb
      simp at hb
    exact ⟨⟨fun _ => Or.inr h2x, fun _ => ⟨_, rfl⟩⟩, fun _ hor => absurd hor h2x⟩
  · refine ⟨⟨fun hex => ?_, fun hor => ?_⟩, fun _ _ => rfl⟩
    · obtain ⟨msg, hmsg⟩ := hex
      exact absurd hmsg (by simp)
    · rcases hor with hdup | hbad
      · exact absurd (hany.mpr hdup) h1
      · have hx : (spec.severity == "error" || spec.severity == "warn") = true := by
          revert h2
          cases spec.severity == "error" || spec.severity == "warn" <;> simp
        exact absurd (hsev.mp hx) hbad

/-- Witness for C9 at a concrete registration: adding the orientation rule
to the empty registry succeeds and appends it. -/
theorem registry_add_error_iff_witness :
    _add [] ⟨"surface_orientation", surface_orientation, "error", true⟩ =
      Except.ok ([] ++ [⟨"surface_orientation", surface_orientation, "error", true⟩]) :=
  (registry_add_error_iff [] _).2 (by simp) (Or.inl rfl)

/-- Every collected result entry carries the registry identity: the lookup
of its key succeeds and the stamped severity is the registry-declared
one. -/
lemma check_results_registry (fns : String → CheckFn) (mv : MeshView) (config : Config)
    {p : String × Finding} (hp : p ∈ check_results fns mv config) :
    ∃ spec, (REGISTRY fns).find? (fun s => s.id == p.1) = some spec ∧
      p.2.severity = spec.severity := by
  simp only [check_results, List.mem_filterMap] at hp
  obtain ⟨rid, hrid, hf⟩ := hp
  cases hfind : (REGISTRY fns).find? (fun s => s.id == rid) with
  | none => rw [hfind] at hf; simp at hf
  | some spec =>
    rw [hfind] at hf
    simp only [Option.some.injEq] at hf
    obtain rfl := hf
    exact ⟨spec, hfind, rfl⟩

/-- C1: the overall `ok` of `run_checks` is false exactly when some
collected (enabled) rule finding has registry severity "error" and
`ok = false`; warn-severity findings can never flip the overall verdict. -/
theorem run_checks_ok_false_iff (fns : String → CheckFn) (mv : MeshView) (config : Config) :
    (run_checks fns mv config).ok = false ↔
      ∃ p ∈ (run_checks fns mv config).rules, p.2.severity = "error" ∧ p.2.ok = false := by
  show overall_ok (REGISTRY fns) (check_results fns mv config) = false ↔
      ∃ p ∈ check_results fns mv config, p.2.severity = "error" ∧ p.2.ok = false
  unfold overall_ok
  rw [Bool.not_eq_false', List.any_eq_true]
  constructor
  · rintro ⟨p, hp, hq⟩
    obtain ⟨spec, hfind, hsev⟩ := check_results_registry fns mv config hp
    rw [hfind] at hq
    simp only [Bool.and_eq_true, beq_iff_eq, Bool.not_eq_true'] at hq
    exact ⟨p, hp, by rw [hsev]; exact hq.1, hq.2⟩
  · rintro ⟨p, hp, hsevE, hokF⟩
    obtain ⟨spec, hfind, hsev⟩ := check_results_registry fns mv config hp
    refine ⟨p, hp, ?_⟩
    rw [hfind]
    have : spec.severity = "error" := by rw [← hsev]; exact hsevE
    simp [this, hokF]

/-- Trivial check function used to instantiate the registry parameter on
concrete inputs; the executed-rule ids of `run_checks` do not depend on the
rule bodies (see `run_checks_none_config_rules`). -/
def constCheckFn : CheckFn := fun _ _ _ =>
  { id := "", severity := "warn", ok := true, count := 0, examples := [],
    details := [], fixable := true }

/-- Absent user configuration: `run_checks(path)` with `config=None`. -/
def emptyConfig : Config := { enabled := [], thresholds := [] }

/-- Smallest mesh view: no points and no cells. -/
def emptyMeshView : MeshView :=
  { mesh_path := "mesh.msh", points := [], tris := none, quads := none,
    cell_tags := [], line_tags := [], bbox := (0, 0, 0, 0) }

/-- Rule ids actually executed under the default configuration: all of
`RULES_ORDER` except `overlapping_elements` and `first_layer_height`, which
`DEFAULTS["enabled"]` switches off. -/
def DEFAULT_ENABLED_IDS : List String :=
  ["surface_orientation", "negative_jacobians", "duplicate_elements",
   "multiple_edges", "nonmanifold", "uncovered_faces",
   "missing_internal_faces", "missing_physical_groups", "bl_continuity",
   "two_single_edges", "tiny_elements", "min_angle_tris",
   "quad_skewness_orthogonality", "grading_spikes",
   "boundary_coverage", "untagged_entities"]

/-- Counterexample to C7: with no user config, `run_checks` does not
execute every rule in `RULES_ORDER`; `overlapping_elements` is in
`RULES_ORDER` but absent from the output rules map, because
`DEFAULTS["enabled"]` sets it to `False`. -/
theorem run_checks_none_config_misses_rule :
    "overlapping_elements" ∈ RULES_ORDER ∧
    "overlapping_elements" ∉
      (run_checks (fun _ => constCheckFn) emptyMeshView emptyConfig).rules.map Prod.fst := by
  constructor
  · decide
  · intro h
    have hkeys : (run_checks (fun _ => constCheckFn) emptyMeshView emptyConfig).rules.map
        Prod.fst = DEFAULT_ENABLED_IDS := rfl
    rw [hkeys] at h
    exact absurd h (by decide)

/-- C7 amended: an id absent from a nonempty enable map does default to
enabled in `get_enabled_ids`, but `run_checks` with `config = None` runs
only the rules enabled by `DEFAULTS` — every id of `RULES_ORDER` except
`overlapping_elements` and `first_layer_height` — and returns a finding for
exactly those ids. -/
theorem run_checks_none_config_rules (fns : String → CheckFn) (mv : MeshView) :
    (run_checks fns mv emptyConfig).rules.map Prod.fst = DEFAULT_ENABLED_IDS ∧
    (∀ (m : List (String × Bool)) (rid : String), m.isEmpty = false →
      m.lookup rid = none → (rid ∈ get_enabled_ids (some m) ↔ rid ∈ RULES_ORDER)) := by
  constructor
  · rfl
  · intro m rid hm hlook
    simp [get_enabled_ids, hm, List.mem_filter, hlook]

/-- Witness for C7 at concrete inputs: the default-run key list on the
empty mesh, and the default-to-enabled behaviour for an id missing from a
nonempty enable map. -/
theorem run_checks_none_config_rules_witness :
    (run_checks (fun _ => constCheckFn) emptyMeshView emptyConfig).rules.map Prod.fst =
      DEFAULT_ENABLED_IDS ∧
    ("surface_orientation" ∈ get_enabled_ids (some [("bl_continuity", false)]) ↔
      "surface_orientation" ∈ RULES_ORDER) :=
  ⟨(run_checks_none_config_rules (fun _ => constCheckFn) emptyMeshView).1,
   (run_checks_none_config_rules (fun _ => constCheckFn) emptyMeshView).2
     [("bl_continuity", false)] "surface_orientation" (by decide) (by decide)⟩

/-- Degenerate mesh: one triangle with three collinear points, signed area
exactly zero. -/
def mvDegenTri : MeshView :=
  { mesh_path := "degenerate.msh", points := [(0, 0), (1, 0), (2, 0)],
    tris := some [(0, 1, 2)], quads := none, cell_tags := [], line_tags := [],
    bbox := (0, 0, 2, 0) }

/-- Reversing a triangle row negates its signed area. -/
lemma triAreaOf_revRow3 (pts : List Point) (t : Tri3) :
    triAreaOf pts (revRow3 t) = -triAreaOf pts t := by
  unfold triAreaOf revRow3 triSignedArea
  ring

/-- Membership in the flagged-triangle list of `surface_orientation`. -/
lemma mem_surfaceOrientationBadTris {mv : MeshView} {ts : List Tri3}
    (hts : mv.tris = some ts) (i : ℕ) :
    i ∈ surfaceOrientationBadTris mv ↔
      i < ts.length ∧ triAreaOf mv.points (ts.getD i (0, 0, 0)) < 0 := by
  unfold surfaceOrientationBadTris
  rw [hts]
  simp [List.mem_filter, List.mem_range]

/-- Reading back the modified position. -/
lemma getD_modify_self {α : Type} (f : α → α) (l : List α) (i : ℕ) (d : α)
    (hi : i < l.length) : (List.modify f i l).getD i d = f (l.getD i d) := by
  rw [List.getD_eq_getElem?_getD, List.getD_eq_getElem?_getD, List.getElem?_modify]
  rw [List.getElem?_eq_getElem hi]
  simp

/-- Counterexample to C2 as stated: on a zero-area triangle the rule does
not flag the cell (it tests `area < 0`, not `area ≤ 0`), so per-triangle
`ok` is true while `signed_area > 0` is false — the claimed biconditional
`ok == (signed_area > 0)` fails. -/
theorem surface_orientation_zero_area_counterexample :
    (surface_orientation mvDegenTri DEFAULTS_thresholds
        (precompute_cache mvDegenTri DEFAULTS_thresholds)).ok = true ∧
    triAreaOf mvDegenTri.points ((0, 1, 2) : Tri3) = 0 ∧
    ¬((0 ∉ surfaceOrientationBadTris mvDegenTri) ↔
        0 < triAreaOf mvDegenTri.points ((0, 1, 2) : Tri3)) := by
  have hArea : triAreaOf mvDegenTri.points ((0, 1, 2) : Tri3) = 0 := by
    norm_num [triAreaOf, triSignedArea, getPt, List.getD, mvDegenTri]
  have hmem : ∀ j, j ∉ surfaceOrientationBadTris mvDegenTri := by
    intro j hj
    have hts : mvDegenTri.tris = some [((0 : ℕ), 1, 2)] := rfl
    obtain ⟨hlt, hneg⟩ := (mem_surfaceOrientationBadTris hts j).mp hj
    have hj0 : j = 0 := Nat.lt_one_iff.mp (by simpa using hlt)
    subst hj0
    rw [show ([((0 : ℕ), 1, 2)] : List Tri3).getD 0 (0, 0, 0) = ((0 : ℕ), 1, 2)
      from rfl] at hneg
    rw [hArea] at hneg
    exact lt_irrefl 0 hneg
  have hnil : surfaceOrientationBadTris mvDegenTri = [] :=
    List.eq_nil_iff_forall_not_mem.mpr hmem
  refine ⟨?_, hArea, ?_⟩
  · show ((surfaceOrientationBadTris mvDegenTri).map (Example.cell "tri") ++
      (surfaceOrientationBadQuads mvDegenTri).map (Example.cell "quad")).isEmpty = true
    rw [hnil]
    rfl
  · intro h
    have hpos := h.mp (hmem 0)
    rw [hArea] at hpos
    exact lt_irrefl 0 hpos

/-- C2 amended: a triangle is flagged by `surface_orientation` exactly when
its signed area is strictly negative (zero-area triangles pass); a
nonempty flag list makes the finding `ok = false`; and reversing the node
order of a flagged triangle (the `reorient_cells` edit) removes its flag
on re-check. -/
theorem surface_orientation_flag_iff_neg_area (mv : MeshView) (ts : List Tri3) (i : ℕ)
    (hts : mv.tris = some ts) (hi : i < ts.length) :
    (i ∈ surfaceOrientationBadTris mv ↔
      triAreaOf mv.points (ts.getD i (0, 0, 0)) < 0) ∧
    (∀ th cache, surfaceOrientationBadTris mv ≠ [] →
      (surface_orientation mv th cache).ok = false) ∧
    (i ∈ surfaceOrientationBadTris mv →
      i ∉ surfaceOrientationBadTris
        { mv with tris := some (reorientList revRow3 ts [i]) }) := by
  refine ⟨?_, ?_, ?_⟩
  · rw [mem_surfaceOrientationBadTris hts]
    exact and_iff_right hi
  · intro th cache hne
    show ((surfaceOrientationBadTris mv).map (Example.cell "tri") ++
        (surfaceOrientationBadQuads mv).map (Example.cell "quad")).isEmpty = false
    cases hbt : surfaceOrientationBadTris mv with
    | nil => exact absurd hbt hne
    | cons x xs => rfl
  · intro hmem
    have harea := ((mem_surfaceOrientationBadTris hts i).mp hmem).2
    rw [mem_surfaceOrientationBadTris
      (show ({ mv with tris := some (reorientList revRow3 ts [i]) } : MeshView).tris =
        some (reorientList revRow3 ts [i]) from rfl)]
    rintro ⟨hlen, hneg⟩
    have hrl : reorientList revRow3 ts [i] = List.modify revRow3 i ts := rfl
    rw [hrl, getD_modify_self revRow3 ts i (0, 0, 0) hi] at hneg
    rw [show ({ mv with tris := some (reorientList revRow3 ts [i]) } : MeshView).points =
      mv.points from rfl, triAreaOf_revRow3] at hneg
    linarith

/-- Clockwise triangle mesh: one triangle wound CW (negative area). -/
def mvCWTri : MeshView :=
  { mesh_path := "cw.msh", points := [(0, 0), (1, 0), (0, 1)],
    tris := some [(0, 2, 1)], quads := none, cell_tags := [], line_tags := [],
    bbox := (0, 0, 1, 1) }

/-- Witness for the amended C2 at a concrete CW triangle: it is flagged, it
makes the finding fail, and flipping it clears the flag. -/
theorem surface_orientation_flag_iff_neg_area_witness :
    (0 ∈ surfaceOrientationBadTris mvCWTri ↔
      triAreaOf mvCWTri.points (([((0 : ℕ), 2, 1)] : List Tri3).getD 0 (0, 0, 0)) < 0) ∧
    (surface_orientation mvCWTri DEFAULTS_thresholds
        (precompute_cache mvCWTri DEFAULTS_thresholds)).ok = false ∧
    0 ∉ surfaceOrientationBadTris
      { mvCWTri with tris := some (reorientList revRow3 [((0 : ℕ), 2, 1)] [0]) } := by
  have h := surface_orientation_flag_iff_neg_area mvCWTri [((0 : ℕ), 2, 1)] 0 rfl
    (by decide)
  have hneg : triAreaOf mvCWTri.points
      (([((0 : ℕ), 2, 1)] : List Tri3).getD 0 (0, 0, 0)) < 0 := by
    norm_num [triAreaOf, triSignedArea, getPt, List.getD, mvCWTri]
  have hmem : 0 ∈ surfaceOrientationBadTris mvCWTri := h.1.mpr hneg
  refine ⟨h.1, h.2.1 DEFAULTS_thresholds _ ?_, h.2.2 hmem⟩
  intro hnil
  rw [hnil] at hmem
  cases hmem

/-- Keys of the association list after a `setdefault`-append: unchanged if
the key was present, appended otherwise. -/
lemma setdefaultAppend_keys {κ ν : Type} [DecidableEq κ] (m : List (κ × List ν))
    (k : κ) (v : ν) :
    (setdefaultAppend m k v).map Prod.fst =
      if m.any (fun p => decide (p.1 = k)) then m.map Prod.fst
      else m.map Prod.fst ++ [k] := by
  unfold setdefaultAppend
  split_ifs with h
  · rw [List.map_map]
    apply List.map_congr_left
    intro p hp
    by_cases hk : p.1 = k <;> simp [hk]
  · simp

/-- A `setdefault`-append preserves distinctness of the keys. -/
lemma setdefaultAppend_keys_nodup {κ ν : Type} [DecidableEq κ]
    {m : List (κ × List ν)} (k : κ) (v : ν) (h : (m.map Prod.fst).Nodup) :
    ((setdefaultAppend m k v).map Prod.fst).Nodup := by
  rw [setdefaultAppend_keys]
  split_ifs with hany
  · exact h
  · have hk : k ∉ m.map Prod.fst := by
      intro hmem
      rw [List.mem_map] at hmem
      obtain ⟨p, hp, hfst⟩ := hmem
      exact hany (List.any_eq_true.mpr ⟨p, hp, by simp [hfst]⟩)
    rw [List.nodup_append]
    refine ⟨h, List.nodup_singleton k, ?_⟩
    intro a ha hb
    rw [List.mem_singleton] at hb
    subst hb
    exact hk ha

/-- Distinct keys are preserved along any fold whose steps preserve them. -/
lemma foldl_keys_nodup {κ ν β : Type} [DecidableEq κ]
    (step : List (κ × List ν) → β → List (κ × List ν))
    (hstep : ∀ m b, (m.map Prod.fst).Nodup → ((step m b).map Prod.fst).Nodup) :
    ∀ (l : List β) (m : List (κ × List ν)), (m.map Prod.fst).Nodup →
      ((l.foldl step m).map Prod.fst).Nodup := by
  intro l
  induction l with
  | nil => intro m h; exact h
  | cons b bs ih => intro m h; exact ih _ (hstep m b h)

/-- The edge-to-cells map built by the cache has pairwise-distinct edge
keys: Python dict keys are unique by construction. -/
lemma edge_cells_keys_nodup (ce : List (List Edge)) :
    ((_build_edge_cells ce).map Prod.fst).Nodup := by
  unfold _build_edge_cells
  refine foldl_keys_nodup _ ?_ _ _ List.nodup_nil
  intro m p hm
  refine foldl_keys_nodup _ ?_ _ _ hm
  intro m2 e hm2
  exact setdefaultAppend_keys_nodup e p.1 hm2

/-- Elements of a duplicate-free list have multiplicity at most one, for
any lawful boolean equality. -/
lemma count_le_one_of_nodup {α : Type} [BEq α] [LawfulBEq α] {l : List α}
    (h : l.Nodup) (a : α) : l.count a ≤ 1 := by
  induction l with
  | nil => simp
  | cons b bs ih =>
    rw [List.nodup_cons] at h
    rw [List.count_cons]
    by_cases hba : b = a
    · subst hba
      have hz : bs.count b = 0 := List.count_eq_zero.mpr h.1
      simp [hz]
    · have hf : (b == a) = false := beq_eq_false_iff_ne.mpr hba
      simp only [hf, if_false, Nat.add_zero]
      exact ih h.2

/-- C3: `multiple_edges` reports `ok = false` exactly when some undirected
edge key appears with multiplicity above one among the `edge_cells` keys of
the cache built for the mesh — and since those keys are dict keys, no
multiplicity can exceed one, so the finding is in fact always `ok = true`
(the rule can never fire on a cache produced by `precompute_cache`). -/
theorem multiple_edges_ok_iff (mv : MeshView) (cfg th : Thresholds) :
    ((multiple_edges mv th (precompute_cache mv cfg)).ok = false ↔
      ∃ e : Edge, 1 < ((precompute_cache mv cfg).edge_cells.map Prod.fst).count e) ∧
    (multiple_edges mv th (precompute_cache mv cfg)).ok = true := by
  have hnodup : (((precompute_cache mv cfg).edge_cells).map Prod.fst).Nodup :=
    edge_cells_keys_nodup _
  have hcount : ∀ e : Edge,
      ((precompute_cache mv cfg).edge_cells.map Prod.fst).count e ≤ 1 :=
    fun e => count_le_one_of_nodup hnodup e
  have hok : (multiple_edges mv th (precompute_cache mv cfg)).ok = true := by
    show ((firstOccurrences ((precompute_cache mv cfg).edge_cells.map Prod.fst)).filter
      (fun e => decide (1 <
        ((precompute_cache mv cfg).edge_cells.map Prod.fst).count e))).isEmpty = true
    rw [List.isEmpty_iff, List.filter_eq_nil_iff]
    intro e he
    simp only [decide_eq_true_eq, not_lt]
    exact hcount e
  refine ⟨⟨fun hfalse => ?_, fun hex => ?_⟩, hok⟩
  · rw [hok] at hfalse
    cases hfalse
  · obtain ⟨e, he⟩ := hex
    exact absurd he (Nat.not_lt.mpr (hcount e))

/-- Reading any position of a reorientation: the row is reversed once per
occurrence of its index in the list. -/
lemma getElem?_reorientList {α : Type} (rev : α → α) (idxs : List ℕ) (l : List α)
    (n : ℕ) : (reorientList rev l idxs)[n]? = (l[n]?).map (rev^[idxs.count n]) := by
  induction idxs generalizing l with
  | nil => simp [reorientList]
  | cons i is ih =>
    have hstep : reorientList rev l (i :: is) =
        reorientList rev (List.modify rev i l) is := rfl
    rw [hstep, ih (List.modify rev i l), List.getElem?_modify]
    by_cases hin : i = n
    · subst hin
      rw [List.count_cons_self]
      cases l[i]? with
      | none => rfl
      | some a => simp [Function.iterate_succ_apply]
    · rw [List.count_cons]
      have hne : (i == n) = false := beq_eq_false_iff_ne.mpr hin
      rw [hne]
      cases l[n]? with
      | none => rfl
      | some a => simp [hin]

/-- Applying an involution through an iterate twice cancels. -/
lemma iterate_iterate_cancel {α : Type} (rev : α → α) (hrev : ∀ x, rev (rev x) = x)
    (c : ℕ) (x : α) : rev^[c] (rev^[c] x) = x := by
  induction c generalizing x with
  | zero => rfl
  | succ n ih =>
    calc rev^[n + 1] (rev^[n + 1] x)
        = rev (rev^[n] (rev^[n] (rev x))) := by
          rw [Function.iterate_succ_apply rev n x, Function.iterate_succ_apply']
      _ = rev (rev x) := by rw [ih (rev x)]
      _ = x := hrev x

/-- Reorienting twice with the same index list restores the original rows:
each listed row is reversed an even number of times. -/
lemma reorientList_involutive {α : Type} (rev : α → α) (hrev : ∀ x, rev (rev x) = x)
    (l : List α) (idxs : List ℕ) :
    reorientList rev (reorientList rev l idxs) idxs = l := by
  apply List.ext_get?
  intro n
  rw [List.get?_eq_getElem?, List.get?_eq_getElem?, getElem?_reorientList,
    getElem?_reorientList]
  cases l[n]? with
  | none => rfl
  | some a => simp [iterate_iterate_cancel rev hrev]

/-- Mesh shape of a triangle reorientation. -/
lemma reorient_cells_tri (m : Mesh) (idxs : List ℕ) :
    (reorient_cells m "tri" idxs).1 =
      { m with tris := Option.map (fun ts => reorientList revRow3 ts idxs) m.tris } := by
  obtain ⟨p, pts, tris, quads, ct, lt, d⟩ := m
  by_cases he : idxs.isEmpty
  · obtain rfl := List.isEmpty_iff.mp he
    cases tris <;> simp [reorient_cells, reorientList]
  · cases tris <;> simp [reorient_cells, he]

/-- Mesh shape of a quad reorientation. -/
lemma reorient_cells_quad (m : Mesh) (idxs : List ℕ) :
    (reorient_cells m "quad" idxs).1 =
      { m with quads := Option.map (fun qs => reorientList revRow4 qs idxs) m.quads } := by
  obtain ⟨p, pts, tris, quads, ct, lt, d⟩ := m
  by_cases he : idxs.isEmpty
  · obtain rfl := List.isEmpty_iff.mp he
    cases quads <;> simp [reorient_cells, reorientList]
  · cases quads <;> simp [reorient_cells, he]

/-- The orientation fixer rewrites the mesh by reorienting the listed
triangles and quads in place. -/
lemma fix_orientation_mesh (mesh : Mesh) (f : Finding) (cfg : RuleCfg) :
    (fix_orientation mesh f cfg).1 =
      { mesh with
        tris := Option.map
          (fun ts => reorientList revRow3 ts (triExampleIdxs f.examples)) mesh.tris,
        quads := Option.map
          (fun qs => reorientList revRow4 qs (quadExampleIdxs f.examples)) mesh.quads } := by
  have h1 : ∀ (m : Mesh) (idxs : List ℕ),
      (if idxs.isEmpty then (m, 0) else reorient_cells m "tri" idxs).1 =
        { m with tris := Option.map (fun ts => reorientList revRow3 ts idxs) m.tris } := by
    intro m idxs
    by_cases he : idxs.isEmpty
    · obtain rfl := List.isEmpty_iff.mp he
      obtain ⟨p, pts, tris, quads, ct, lt, d⟩ := m
      cases tris <;> simp [reorientList]
    · simp [he, reorient_cells_tri]
  have h2 : ∀ (m : Mesh) (idxs : List ℕ),
      (if idxs.isEmpty then (m, 0) else reorient_cells m "quad" idxs).1 =
        { m with quads := Option.map (fun qs => reorientList revRow4 qs idxs) m.quads } := by
    intro m idxs
    by_cases he : idxs.isEmpty
    · obtain rfl := List.isEmpty_iff.mp he
      obtain ⟨p, pts, tris, quads, ct, lt, d⟩ := m
      cases quads <;> simp [reorientList]
    · simp [he, reorient_cells_quad]
  have hshape : (fix_orientation mesh f cfg).1 =
      (if (quadExampleIdxs f.examples).isEmpty
        then ((if (triExampleIdxs f.examples).isEmpty then (mesh, 0)
               else reorient_cells mesh "tri" (triExampleIdxs f.examples)).1, 0)
        else reorient_cells
               ((if (triExampleIdxs f.examples).isEmpty then (mesh, 0)
                 else reorient_cells mesh "tri" (triExampleIdxs f.examples)).1)
               "quad" (quadExampleIdxs f.examples)).1 := rfl
  rw [hshape, h2, h1]

/-- C6 amended: applying the orientation fixer twice with the same finding
restores the original mesh — flipping winding is an involution, so the
second application undoes the first rather than repeating it. -/
theorem fix_orientation_twice_restores (mesh : Mesh) (f : Finding) (c1 c2 : RuleCfg) :
    (fix_orientation (fix_orientation mesh f c1).1 f c2).1 = mesh := by
  rw [fix_orientation_mesh, fix_orientation_mesh]
  obtain ⟨p, pts, tris, quads, ct, lt, d⟩ := mesh
  cases tris <;> cases quads <;>
    simp [reorientList_involutive revRow3 (fun t => rfl),
      reorientList_involutive revRow4 (fun q => rfl)]

/-- Mesh with a single triangle, and the orientation finding that flags
it. -/
def meshOneTri : Mesh :=
  { path := "m.msh", points := [(0, 0), (1, 0), (0, 1)], tris := some [(0, 1, 2)],
    quads := none, cell_tags := [], line_tags := [], dim := 2 }

/-- Orientation finding naming triangle 0, as the checker would report. -/
def findingTri0 : Finding :=
  { id := "surface_orientation", severity := "error", ok := false, count := 1,
    examples := [Example.cell "tri" 0], details := [], fixable := true }

/-- Counterexample to C6 as stated: applying the orientation fixer twice
with the same examples does not equal applying it once — the second
application flips the triangle back to its original winding. -/
theorem fix_orientation_not_idempotent :
    (fix_orientation (fix_orientation meshOneTri findingTri0 []).1 findingTri0 []).1 ≠
      (fix_orientation meshOneTri findingTri0 []).1 := by
  intro h
  have h2 : (some [((0 : ℕ), 1, 2)] : Option (List Tri3)) = some [((2 : ℕ), 1, 0)] :=
    congrArg Mesh.tris h
  simp at h2

/-- Indices produced by the duplicate scan are at least the running
counter. -/
lemma dupIdxAux_le {κ : Type} [DecidableEq κ] :
    ∀ (l : List κ) (seen : List κ) (i j : ℕ), j ∈ dupIdxAux seen l i → i ≤ j := by
  intro l
  induction l with
  | nil => intro seen i j h; cases h
  | cons k rest ih =>
    intro seen i j h
    by_cases hk : k ∈ seen
    · rw [show dupIdxAux seen (k :: rest) i = i :: dupIdxAux seen rest (i + 1)
        from by simp [dupIdxAux, hk]] at h
      rcases List.mem_cons.mp h with h1 | h2
      · omega
      · exact le_trans (Nat.le_succ i) (ih seen (i + 1) j h2)
    · rw [show dupIdxAux seen (k :: rest) i = dupIdxAux (k :: seen) rest (i + 1)
        from by simp [dupIdxAux, hk]] at h
      exact le_trans (Nat.le_succ i) (ih _ _ _ h)

/-- Keep the rows whose key has not been seen yet, recording keys as they
pass — the survivor list of a duplicate-removal pass. -/
def keepByKeyAux {α κ : Type} [DecidableEq κ] (key : α → κ) (seen : List κ) :
    List α → List α
  | [] => []
  | a :: l =>
    if key a ∈ seen then keepByKeyAux key seen l
    else a :: keepByKeyAux key (key a :: seen) l

/-- Dropping the duplicate-scan positions from an enumerated list leaves
exactly the first-occurrence rows. -/
lemma remove_enumFrom_dupIdx {α κ : Type} [DecidableEq κ] (key : α → κ) :
    ∀ (l : List α) (seen : List κ) (i : ℕ),
      ((List.enumFrom i l).filter
        (fun p => !((dupIdxAux seen (l.map key) i).contains p.1))).map Prod.snd =
      keepByKeyAux key seen l := by
  intro l
  induction l with
  | nil => intro seen i; rfl
  | cons a l ih =>
    intro seen i
    rw [List.enumFrom_cons]
    by_cases hin : key a ∈ seen
    · have hD : dupIdxAux seen ((a :: l).map key) i =
          i :: dupIdxAux seen (l.map key) (i + 1) := by
        simp [dupIdxAux, hin]
      rw [hD, List.filter_cons]
      have hhead : (!((i :: dupIdxAux seen (l.map key) (i + 1)).contains i)) = false := by
        simp [List.contains_cons]
      rw [hhead]
      have htail : ((List.enumFrom (i + 1) l).filter
          (fun p => !((i :: dupIdxAux seen (l.map key) (i + 1)).contains p.1))) =
          ((List.enumFrom (i + 1) l).filter
          (fun p => !((dupIdxAux seen (l.map key) (i + 1)).contains p.1))) := by
        apply List.filter_congr
        intro p hp
        have hge : i + 1 ≤ p.1 := (List.mem_enumFrom hp).1
        have hne : (p.1 == i) = false := by
          apply beq_eq_false_iff_ne.mpr
          omega
        simp only [List.contains_cons, hne, Bool.false_or]
      rw [if_neg (by simp), htail, ih seen (i + 1)]
      simp [keepByKeyAux, hin]
    · have hD : dupIdxAux seen ((a :: l).map key) i =
          dupIdxAux (key a :: seen) (l.map key) (i + 1) := by
        simp [dupIdxAux, hin]
      rw [hD, List.filter_cons]
      have hni : i ∉ dupIdxAux (key a :: seen) (l.map key) (i + 1) := fun hm => by
        have := dupIdxAux_le _ _ _ _ hm
        omega
      have hhead : (!((dupIdxAux (key a :: seen) (l.map key) (i + 1)).contains i)) = true := by
        simpa using hni
      rw [if_pos (by simpa using hni)]
      rw [List.map_cons, ih (key a :: seen) (i + 1)]
      simp [keepByKeyAux, hin]

/-- The survivors carry pairwise-distinct keys, none of them previously
seen. -/
lemma keepByKeyAux_keys {α κ : Type} [DecidableEq κ] (key : α → κ) :
    ∀ (l : List α) (seen : List κ),
      ((keepByKeyAux key seen l).map key).Nodup ∧
        ∀ k ∈ (keepByKeyAux key seen l).map key, k ∉ seen := by
  intro l
  induction l with
  | nil =>
    intro seen
    refine ⟨List.nodup_nil, ?_⟩
    intro k hk
    simp [keepByKeyAux] at hk
  | cons a l ih =>
    intro seen
    by_cases hk : key a ∈ seen
    · simpa [keepByKeyAux, hk] using ih seen
    · obtain ⟨hnd, hout⟩ := ih (key a :: seen)
      constructor
      · rw [show keepByKeyAux key seen (a :: l) = a :: keepByKeyAux key (key a :: seen) l
          from by simp [keepByKeyAux, hk]]
        rw [List.map_cons, List.nodup_cons]
        exact ⟨fun hmem => (hout _ hmem) (List.mem_cons_self _ _), hnd⟩
      · rw [show keepByKeyAux key seen (a :: l) = a :: keepByKeyAux key (key a :: seen) l
          from by simp [keepByKeyAux, hk]]
        rw [List.map_cons]
        intro k hkmem
        rcases List.mem_cons.mp hkmem with h1 | h2
        · subst h1; exact hk
        · exact fun hs => (hout _ h2) (List.mem_cons_of_mem _ hs)

/-- A scan over distinct, unseen keys reports no duplicates. -/
lemma dupIdxAux_eq_nil {κ : Type} [DecidableEq κ] :
    ∀ (l : List κ) (seen : List κ) (i : ℕ),
      l.Nodup → (∀ k ∈ l, k ∉ seen) → dupIdxAux seen l i = [] := by
  intro l
  induction l with
  | nil => intro seen i _ _; rfl
  | cons k rest ih =>
    intro seen i hnd hout
    rw [List.nodup_cons] at hnd
    rw [show dupIdxAux seen (k :: rest) i = dupIdxAux (k :: seen) rest (i + 1)
      from by simp [dupIdxAux, hout k (List.mem_cons_self _ _)]]
    apply ih _ _ hnd.2
    intro x hx hxs
    rcases List.mem_cons.mp hxs with h1 | h2
    · subst h1; exact hnd.1 hx
    · exact hout x (List.mem_cons_of_mem _ hx) h2

/-- Removing one duplicate scan leaves a list whose rescan is empty: the
heart of the idempotence of the duplicates fixer. -/
lemma dupIdx_after_remove {α κ : Type} [DecidableEq κ] (key : α → κ) (l : List α) :
    dupIdxList ((remove_rows l (dupIdxList (l.map key))).map key) = [] := by
  have hrem : remove_rows l (dupIdxList (l.map key)) = keepByKeyAux key [] l := by
    unfold remove_rows dupIdxList
    rw [List.enum_eq_enumFrom]
    exact remove_enumFrom_dupIdx key l [] 0
  rw [hrem]
  unfold dupIdxList
  exact dupIdxAux_eq_nil _ _ _ (keepByKeyAux_keys key l []).1 (fun k _ => by simp)

/-- An empty removal list keeps every row. -/
lemma remove_rows_nil {α : Type} (l : List α) : remove_rows l [] = l := by
  simp [remove_rows, List.enum_map_snd]

/-- Mesh shape of a triangle batch removal. -/
lemma remove_cells_tri_mesh (m : Mesh) (idxs : List ℕ) :
    (remove_cells m "tri" idxs).1 =
      { m with tris := Option.map (fun ts => remove_rows ts idxs) m.tris } := by
  obtain ⟨p, pts, tris, quads, ct, lt, d⟩ := m
  by_cases he : idxs.isEmpty
  · obtain rfl := List.isEmpty_iff.mp he
    cases tris <;> simp [remove_cells, remove_rows_nil]
  · cases tris <;> simp [remove_cells, he]

/-- Mesh shape of a quad batch removal. -/
lemma remove_cells_quad_mesh (m : Mesh) (idxs : List ℕ) :
    (remove_cells m "quad" idxs).1 =
      { m with quads := Option.map (fun qs => remove_rows qs idxs) m.quads } := by
  obtain ⟨p, pts, tris, quads, ct, lt, d⟩ := m
  by_cases he : idxs.isEmpty
  · obtain rfl := List.isEmpty_iff.mp he
    cases quads <;> simp [remove_cells, remove_rows_nil]
  · cases quads <;> simp [remove_cells, he]

/-- The duplicates fixer rewrites the mesh by dropping the reconfirmed
duplicate rows of each element type. -/
lemma fix_duplicates_mesh (mesh : Mesh) (f : Finding) (cfg : RuleCfg) :
    (fix_duplicates mesh f cfg).1 =
      { mesh with
        tris := Option.map (fun ts => remove_rows ts (triDupsOf mesh)) mesh.tris,
        quads := Option.map (fun qs => remove_rows qs (quadDupsOf mesh)) mesh.quads } := by
  have h1 : ∀ (m : Mesh) (idxs : List ℕ),
      (if idxs.isEmpty then (m, 0) else remove_cells m "tri" idxs).1 =
        { m with tris := Option.map (fun ts => remove_rows ts idxs) m.tris } := by
    intro m idxs
    by_cases he : idxs.isEmpty
    · obtain rfl := List.isEmpty_iff.mp he
      obtain ⟨p, pts, tris, quads, ct, lt, d⟩ := m
      cases tris <;> simp [remove_rows_nil]
    · simp [he, remove_cells_tri_mesh]
  have h2 : ∀ (m : Mesh) (idxs : List ℕ),
      (if idxs.isEmpty then (m, 0) else remove_cells m "quad" idxs).1 =
        { m with quads := Option.map (fun qs => remove_rows qs idxs) m.quads } := by
    intro m idxs
    by_cases he : idxs.isEmpty
    · obtain rfl := List.isEmpty_iff.mp he
      obtain ⟨p, pts, tris, quads, ct, lt, d⟩ := m
      cases quads <;> simp [remove_rows_nil]
    · simp [he, remove_cells_quad_mesh]
  have hshape : (fix_duplicates mesh f cfg).1 =
      (if (quadDupsOf mesh).isEmpty
        then ((if (triDupsOf mesh).isEmpty then (mesh, 0)
               else remove_cells mesh "tri" (triDupsOf mesh)).1, 0)
        else remove_cells
               ((if (triDupsOf mesh).isEmpty then (mesh, 0)
                 else remove_cells mesh "tri" (triDupsOf mesh)).1)
               "quad" (quadDupsOf mesh)).1 := rfl
  rw [hshape, h2, h1]

/-- C5: the duplicates fixer is idempotent — after one pass removed every
occurrence beyond the first per canonical key, a second pass reconfirms no
duplicates and reports `applied = 0`.  The canonical keys `canon_tri` and
`canon_quad` live in the repair utils module absent from the sources and
are modelled from the spec as sorted node tuples; the proof only uses that
they are functions of the row. -/
theorem fix_duplicates_second_run_zero (mesh : Mesh) (f1 f2 : Finding) (c1 c2 : RuleCfg) :
    (fix_duplicates (fix_duplicates mesh f1 c1).1 f2 c2).2.applied = 0 := by
  have htri : triDupsOf (fix_duplicates mesh f1 c1).1 = [] := by
    rw [fix_duplicates_mesh]
    cases htris : mesh.tris with
    | none => simp [triDupsOf]
    | some ts =>
      have hd : triDupsOf mesh = dupIdxList (ts.map canon_tri) := by
        simp [triDupsOf, htris]
      simp only [triDupsOf, htris, Option.map_some', hd]
      exact dupIdx_after_remove canon_tri ts
  have hquad : quadDupsOf (fix_duplicates mesh f1 c1).1 = [] := by
    rw [fix_duplicates_mesh]
    cases hquads : mesh.quads with
    | none => simp [quadDupsOf]
    | some qs =>
      have hd : quadDupsOf mesh = dupIdxList (qs.map canon_quad) := by
        simp [quadDupsOf, hquads]
      simp only [quadDupsOf, hquads, Option.map_some', hd]
      exact dupIdx_after_remove canon_quad qs
  have happ : ∀ (m : Mesh) (f : Finding) (c : RuleCfg), triDupsOf m = [] →
      quadDupsOf m = [] → (fix_duplicates m f c).2.applied = 0 := by
    intro m f c h1 h2
    rw [show (fix_duplicates m f c).2.applied =
        ((if (triDupsOf m).isEmpty then (m, 0)
          else remove_cells m "tri" (triDupsOf m)).2 +
         (if (quadDupsOf m).isEmpty
           then ((if (triDupsOf m).isEmpty then (m, 0)
                  else remove_cells m "tri" (triDupsOf m)).1, 0)
           else remove_cells ((if (triDupsOf m).isEmpty then (m, 0)
                 else remove_cells m "tri" (triDupsOf m)).1) "quad"
                 (quadDupsOf m)).2) from rfl]
    rw [h1, h2]
    simp
  exact happ _ f2 c2 htri hquad

/-- Mesh whose duplicate pair is not contiguous: triangle 2 repeats
triangle 0 with reversed winding, and the unrelated triangle 1 sits between
them. -/
def mvDupNoncontig : MeshView :=
  { mesh_path := "dup.msh", points := [(0, 0), (1, 0), (0, 1), (2, 0), (2, 1)],
    tris := some [(0, 1, 2), (1, 3, 4), (2, 1, 0)], quads := none,
    cell_tags := [], line_tags := [], bbox := (0, 0, 2, 1) }

/-- C4 evaluated at the failing input: the mesh duplicates triangle 0 at
index 2 (same sorted node tuple), and `duplicate_elements` does report
`ok = false` with `count = 1` — but its example names `("tri", 1)`, a cell
that is not a duplicate, instead of the true duplicate occurrence at
index 2: the `np.unique` mask marks the positions directly after the first
occurrence, which equal the duplicate occurrences only when these are
contiguous. -/
theorem duplicate_elements_misflags_noncontiguous :
    (duplicate_elements mvDupNoncontig DEFAULTS_thresholds
        (precompute_cache mvDupNoncontig DEFAULTS_thresholds)).ok = false ∧
    (duplicate_elements mvDupNoncontig DEFAULTS_thresholds
        (precompute_cache mvDupNoncontig DEFAULTS_thresholds)).count = 1 ∧
    (duplicate_elements mvDupNoncontig DEFAULTS_thresholds
        (precompute_cache mvDupNoncontig DEFAULTS_thresholds)).examples =
      [Example.cell "tri" 1] ∧
    np_sort_row3 ((2, 1, 0) : Tri3) = np_sort_row3 ((0, 1, 2) : Tri3) ∧
    np_sort_row3 ((1, 3, 4) : Tri3) ≠ np_sort_row3 ((0, 1, 2) : Tri3) := by
  refine ⟨by decide, by decide, by decide, by decide, by decide⟩
